import Mathlib

/-!
Verification of the transcription/diarization client workflow of a
browser-based content-capture app.  The development shallowly embeds
the two service modules:

* the AssemblyAI diarization client (upload → start job → poll loop,
  the realtime WebSocket session, and result formatting), and
* the Gemini client (single-shot transcription, stream option handling,
  and the `createPcmBlob` PCM/base64 audio encoder).

Audio samples are modelled as rationals: every IEEE binary32 sample is a
rational, and all arithmetic performed on samples by the code (clamping
with min/max, multiplication by 32767 or by the power of two 32768) is
exact in binary64, so the rational model computes the very same values.
Assignment into an `Int16Array` truncates toward zero (`jsTrunc`).
-/

namespace Kyra

/-! ## JavaScript-semantics helpers -/

/-- JS `a || b` where `a : Option String` models a possibly-`undefined`
string: `undefined` and the empty string are falsy. -/
def jsOr (a : Option String) (b : String) : String :=
  match a with
  | none => b
  | some s => if s = "" then b else s

/-- JS truthiness of a possibly-`undefined` string. -/
def jsTruthy (a : Option String) : Bool :=
  match a with
  | none => false
  | some s => s ≠ ""

/-- JS template interpolation of a possibly-`undefined` string value. -/
def jsShow (a : Option String) : String :=
  match a with
  | none => "undefined"
  | some s => s

/-- JS `ToInt16`-style truncation toward zero of a (finite, in-range)
number, as performed by assignment into an `Int16Array`. -/
def jsTrunc (q : ℚ) : ℤ :=
  if 0 ≤ q then ⌊q⌋ else ⌈q⌉

theorem jsTrunc_of_nonneg {q : ℚ} (h : 0 ≤ q) : jsTrunc q = ⌊q⌋ := by
  simp [jsTrunc, h]

theorem jsTrunc_of_nonpos {q : ℚ} (h : q ≤ 0) : jsTrunc q = ⌈q⌉ := by
  rcases lt_or_eq_of_le h with h' | h'
  · simp [jsTrunc, not_le.mpr h']
  · simp [jsTrunc, h']

/-- Truncation toward zero moves a value by strictly less than 1. -/
theorem abs_jsTrunc_sub_lt_one (q : ℚ) : |(jsTrunc q : ℚ) - q| < 1 := by
  by_cases h : 0 ≤ q
  · rw [jsTrunc_of_nonneg h, abs_sub_lt_iff]
    constructor
    · linarith [Int.floor_le q]
    · linarith [Int.lt_floor_add_one q]
  · rw [jsTrunc_of_nonpos (le_of_not_le h), abs_sub_lt_iff]
    constructor
    · linarith [Int.ceil_lt_add_one q]
    · linarith [Int.le_ceil q]

theorem jsTrunc_le_of_le {q : ℚ} {n : ℤ} (h : q ≤ (n : ℚ)) (hn : 0 ≤ n) :
    jsTrunc q ≤ n := by
  by_cases h0 : 0 ≤ q
  · rw [jsTrunc_of_nonneg h0]
    exact Int.cast_le.mp (le_trans (Int.floor_le q) h)
  · rw [jsTrunc_of_nonpos (le_of_not_le h0)]
    have h1 : ⌈q⌉ ≤ ⌈(0 : ℚ)⌉ := Int.ceil_le_ceil (le_of_not_le h0)
    simpa using le_trans h1 (by simpa using hn)

theorem le_jsTrunc_of_le {q : ℚ} {n : ℤ} (h : (n : ℚ) ≤ q) (hn : n ≤ 0) :
    n ≤ jsTrunc q := by
  by_cases h0 : 0 ≤ q
  · rw [jsTrunc_of_nonneg h0]
    have h1 : ⌊(0 : ℚ)⌋ ≤ ⌊q⌋ := Int.floor_le_floor h0
    simp only [Int.floor_zero] at h1
    exact le_trans hn h1
  · rw [jsTrunc_of_nonpos (le_of_not_le h0)]
    exact Int.cast_le.mp (le_trans h (Int.le_ceil q))

/-! ## The two PCM sample converters

`createPcmBlob` (geminiService.ts) converts a sample by
`Math.max(-1, Math.min(1, data[i])) * 32767` and the realtime
audio-process handler (assembly service) by
`Math.max(-32768, Math.min(32767, inputData[i] * 32768))`; both results
are truncated toward zero by the `Int16Array` store. -/

/-- Sample conversion of `createPcmBlob`: clamp to [-1, 1], scale by
32767, truncate. -/
def createPcmSample (x : ℚ) : ℤ :=
  jsTrunc (max (-1) (min 1 x) * 32767)

/-- Sample conversion inside `processor.onaudioprocess` of the realtime
client: scale by 32768, clamp to [-32768, 32767], truncate. -/
def realtimePcmSample (x : ℚ) : ℤ :=
  jsTrunc (max (-32768) (min 32767 (x * 32768)))

theorem createPcmSample_le (x : ℚ) : createPcmSample x ≤ 32767 := by
  apply jsTrunc_le_of_le _ (by norm_num)
  have h1 : max (-1) (min 1 x) ≤ 1 := by
    apply max_le (by norm_num) (min_le_left _ _)
  push_cast
  nlinarith

theorem le_createPcmSample (x : ℚ) : -32767 ≤ createPcmSample x := by
  apply le_jsTrunc_of_le _ (by norm_num)
  have h1 : (-1 : ℚ) ≤ max (-1) (min 1 x) := le_max_left _ _
  push_cast
  nlinarith

/-- The batch conversion differs from the clamped-and-scaled ideal value
by strictly less than one LSB. -/
theorem createPcmSample_close (x : ℚ) :
    |(createPcmSample x : ℚ) - max (-1) (min 1 x) * 32767| < 1 :=
  abs_jsTrunc_sub_lt_one _

/-- C10 (amended): the inline Float32-to-Int16 conversion of the realtime
audio-process handler and the conversion of `createPcmBlob` are NOT equal
as functions from samples to 16-bit values (they differ at the sample
one half); what holds is that they never differ by more than one 16-bit
step on any sample. -/
theorem C10_pcm_encoders_agree_within_one_lsb (x : ℚ) :
    (realtimePcmSample x - createPcmSample x).natAbs ≤ 1 := by
  rcases le_or_lt 1 x with hx1 | hx1
  · -- x ≥ 1: both clamp to full scale, realtime hits 32767 as well
    have hminb : min 1 x = 1 := min_eq_left hx1
    have hb : createPcmSample x = 32767 := by
      rw [createPcmSample, hminb]
      norm_num [jsTrunc_of_nonneg, Int.floor_intCast]
    have hminr : min (32767 : ℚ) (x * 32768) = 32767 := by
      apply min_eq_left; nlinarith
    have hr : realtimePcmSample x = 32767 := by
      rw [realtimePcmSample, hminr]
      norm_num [jsTrunc_of_nonneg, Int.floor_intCast]
    rw [hr, hb]; norm_num
  rcases le_or_lt x (-1) with hx2 | hx2
  · -- x ≤ -1: realtime saturates at -32768, batch at -32767
    have hminb : min 1 x = x := min_eq_right (by linarith)
    have hmaxb : max (-1 : ℚ) x = -1 := max_eq_left hx2
    have hb : createPcmSample x = -32767 := by
      rw [createPcmSample, hminb, hmaxb,
        show ((-1 : ℚ) * 32767) = ((-32767 : ℤ) : ℚ) by norm_num,
        jsTrunc_of_nonpos (by norm_num), Int.ceil_intCast]
    have hminr : min (32767 : ℚ) (x * 32768) = x * 32768 := by
      apply min_eq_right; nlinarith
    have hmaxr : max (-32768 : ℚ) (x * 32768) = -32768 := by
      apply max_eq_left; nlinarith
    have hr : realtimePcmSample x = -32768 := by
      rw [realtimePcmSample, hminr, hmaxr,
        show ((-32768 : ℚ)) = ((-32768 : ℤ) : ℚ) by norm_num,
        jsTrunc_of_nonpos (by norm_num), Int.ceil_intCast]
    rw [hr, hb]; norm_num
  · -- -1 < x < 1: no clamping is active apart from the realtime top end
    have hminb : min 1 x = x := min_eq_right (le_of_lt hx1)
    have hmaxb : max (-1 : ℚ) x = x := max_eq_right (le_of_lt hx2)
    have hbdef : createPcmSample x = jsTrunc (x * 32767) := by
      rw [createPcmSample, hminb, hmaxb]
    rcases le_or_lt 0 x with hx0 | hx0
    · -- 0 ≤ x < 1: compare the two floors
      have hmaxr : max (-32768 : ℚ) (min 32767 (x * 32768)) =
          min 32767 (x * 32768) := by
        apply max_eq_right
        rcases min_cases (32767 : ℚ) (x * 32768) with ⟨h, _⟩ | ⟨h, _⟩ <;>
          rw [h] <;> nlinarith
      have hargpos : 0 ≤ min (32767 : ℚ) (x * 32768) :=
        le_min (by norm_num) (by nlinarith)
      have hr : realtimePcmSample x = ⌊min (32767 : ℚ) (x * 32768)⌋ := by
        rw [realtimePcmSample, hmaxr, jsTrunc_of_nonneg hargpos]
      have hb : createPcmSample x = ⌊x * 32767⌋ := by
        rw [hbdef, jsTrunc_of_nonneg (by nlinarith)]
      have hlow : ⌊x * 32767⌋ ≤ ⌊min (32767 : ℚ) (x * 32768)⌋ := by
        apply Int.floor_le_floor
        apply le_min (by nlinarith) (by nlinarith)
      have hhigh : ⌊min (32767 : ℚ) (x * 32768)⌋ ≤ ⌊x * 32767⌋ + 1 := by
        have h1 : min (32767 : ℚ) (x * 32768) ≤ x * 32767 + 1 := by
          apply le_trans (min_le_right _ _); nlinarith
        calc ⌊min (32767 : ℚ) (x * 32768)⌋ ≤ ⌊x * 32767 + 1⌋ :=
              Int.floor_le_floor h1
          _ = ⌊x * 32767⌋ + 1 := Int.floor_add_one _
      rw [hr, hb]; omega
    · -- -1 < x < 0: compare the two ceilings
      have hminr : min (32767 : ℚ) (x * 32768) = x * 32768 := by
        apply min_eq_right; nlinarith
      have hmaxr : max (-32768 : ℚ) (x * 32768) = x * 32768 := by
        apply max_eq_right; nlinarith
      have hr : realtimePcmSample x = ⌈x * 32768⌉ := by
        rw [realtimePcmSample, hminr, hmaxr,
          jsTrunc_of_nonpos (by nlinarith)]
      have hb : createPcmSample x = ⌈x * 32767⌉ := by
        rw [hbdef, jsTrunc_of_nonpos (by nlinarith)]
      have hup : ⌈x * 32768⌉ ≤ ⌈x * 32767⌉ := by
        apply Int.ceil_le_ceil; nlinarith
      have hlow : ⌈x * 32767⌉ - 1 ≤ ⌈x * 32768⌉ := by
        have h1 : x * 32767 - 1 ≤ x * 32768 := by nlinarith
        calc ⌈x * 32767⌉ - 1 = ⌈x * 32767 - 1⌉ := (Int.ceil_sub_one _).symm
          _ ≤ ⌈x * 32768⌉ := Int.ceil_le_ceil h1
      rw [hr, hb]; omega

/-- C10 counterexample: at the sample 1/2 the realtime handler produces
16384 while `createPcmBlob` produces 16383, so the two PCM encoders are
not equivalent as functions from samples to 16-bit values. -/
theorem C10_pcm_encoders_differ :
    realtimePcmSample (1/2) = 16384 ∧ createPcmSample (1/2) = 16383 ∧
      realtimePcmSample (1/2) ≠ createPcmSample (1/2) := by
  have hr : realtimePcmSample (1/2) = 16384 := by
    rw [realtimePcmSample,
      show ((1/2 : ℚ) * 32768) = ((16384 : ℤ) : ℚ) by norm_num,
      show (min (32767 : ℚ) ((16384 : ℤ) : ℚ)) = ((16384 : ℤ) : ℚ) by
        apply min_eq_right; norm_num,
      show (max (-32768 : ℚ) ((16384 : ℤ) : ℚ)) = ((16384 : ℤ) : ℚ) by
        apply max_eq_right; norm_num,
      jsTrunc_of_nonneg (by norm_num), Int.floor_intCast]
  have hb : createPcmSample (1/2) = 16383 := by
    rw [createPcmSample,
      show (min (1 : ℚ) (1/2)) = (1/2 : ℚ) by apply min_eq_right; norm_num,
      show (max (-1 : ℚ) (1/2)) = (1/2 : ℚ) by apply max_eq_right; norm_num,
      jsTrunc_of_nonneg (by norm_num)]
    rw [Int.floor_eq_iff]
    norm_num
  exact ⟨hr, hb, by rw [hr, hb]; norm_num⟩

/-! ## Byte packing and base64 (`createPcmBlob`)

The code stores converted samples in an `Int16Array`, views its buffer
as a `Uint8Array` (two little-endian two's-complement bytes per sample),
builds a binary string byte-by-byte, and applies `btoa` (standard
base64 with `=` padding). -/

/-- The two little-endian bytes of an `Int16Array` slot holding `v`. -/
def int16ToBytesLE (v : ℤ) : List ℕ :=
  let u := (v % 65536).toNat
  [u % 256, u / 256]

/-- Reading one sample back from two little-endian bytes. -/
def int16FromBytesLE (b0 b1 : ℕ) : ℤ :=
  let u := b0 + 256 * b1
  if u < 32768 then (u : ℤ) else (u : ℤ) - 65536

theorem int16_bytes_roundtrip {v : ℤ} (h1 : -32768 ≤ v) (h2 : v ≤ 32767) :
    int16FromBytesLE ((v % 65536).toNat % 256) ((v % 65536).toNat / 256)
      = v := by
  simp only [int16FromBytesLE]
  omega

theorem int16ToBytesLE_lt (v : ℤ) : ∀ b ∈ int16ToBytesLE v, b < 256 := by
  simp only [int16ToBytesLE, List.mem_cons, List.not_mem_nil, or_false]
  intro b hb
  rcases hb with h | h <;> omega

/-- The full little-endian byte stream of the converted samples. -/
def pcmBytes (data : List ℚ) : List ℕ :=
  data.flatMap (fun x => int16ToBytesLE (createPcmSample x))

theorem pcmBytes_lt (data : List ℚ) : ∀ b ∈ pcmBytes data, b < 256 := by
  intro b hb
  simp only [pcmBytes, List.mem_flatMap] at hb
  obtain ⟨x, _, hx⟩ := hb
  exact int16ToBytesLE_lt _ b hx

theorem pcmBytes_length (data : List ℚ) :
    (pcmBytes data).length = 2 * data.length := by
  induction data with
  | nil => simp [pcmBytes]
  | cons x rest ih =>
    have h2 : (int16ToBytesLE (createPcmSample x)).length = 2 := by
      simp [int16ToBytesLE]
    simp only [pcmBytes, List.flatMap_cons, List.length_append,
      List.length_cons]
    simp only [pcmBytes] at ih
    rw [h2, ih]
    ring

/-- Pairing the byte stream back into 16-bit samples. -/
def decodeInt16LE : List ℕ → Option (List ℤ)
  | [] => some []
  | b0 :: b1 :: rest =>
      (decodeInt16LE rest).map (fun vs => int16FromBytesLE b0 b1 :: vs)
  | _ => none

theorem decodeInt16LE_cons2 (b0 b1 : ℕ) (t : List ℕ) :
    decodeInt16LE (b0 :: b1 :: t) =
      (decodeInt16LE t).map (fun vs => int16FromBytesLE b0 b1 :: vs) := rfl

theorem decodeInt16LE_pcmBytes (data : List ℚ) :
    decodeInt16LE (pcmBytes data) = some (data.map createPcmSample) := by
  induction data with
  | nil => simp [pcmBytes, decodeInt16LE]
  | cons x rest ih =>
    have hr : int16FromBytesLE
        ((createPcmSample x % 65536).toNat % 256)
        ((createPcmSample x % 65536).toNat / 256) = createPcmSample x :=
      int16_bytes_roundtrip
        (le_trans (by norm_num) (le_createPcmSample x))
        (createPcmSample_le x)
    have hstep : pcmBytes (x :: rest) =
        (createPcmSample x % 65536).toNat % 256 ::
        (createPcmSample x % 65536).toNat / 256 :: pcmBytes rest := rfl
    rw [hstep, decodeInt16LE_cons2, ih, Option.map_some', hr,
      List.map_cons]

/-- The base64 alphabet used by `btoa`. -/
def b64Alphabet : List Char :=
  "ABCDEFGHIJKLMNOPQRSTUVWXYZabcdefghijklmnopqrstuvwxyz0123456789+/".toList

def b64Char (i : ℕ) : Char := b64Alphabet.getD i 'A'

def b64Index (c : Char) : Option ℕ :=
  (b64Alphabet.indexOf? c).map id

theorem b64Index_b64Char : ∀ i : ℕ, i < 64 → b64Index (b64Char i) = some i := by
  decide

theorem b64Char_ne_pad : ∀ i : ℕ, i < 64 → b64Char i ≠ '=' := by
  decide

/-- Standard base64 with padding, as produced by `btoa` on the binary
string the code assembles byte-by-byte. -/
def base64Encode : List ℕ → List Char
  | [] => []
  | [b0] => [b64Char (b0 / 4), b64Char (b0 % 4 * 16), '=', '=']
  | [b0, b1] => [b64Char (b0 / 4), b64Char (b0 % 4 * 16 + b1 / 16),
      b64Char (b1 % 16 * 4), '=']
  | b0 :: b1 :: b2 :: rest =>
      b64Char (b0 / 4) :: b64Char (b0 % 4 * 16 + b1 / 16) ::
      b64Char (b1 % 16 * 4 + b2 / 64) :: b64Char (b2 % 64) ::
      base64Encode rest

/-- Standard base64 decoding; `none` on malformed input. -/
def base64Decode : List Char → Option (List ℕ)
  | [] => some []
  | c0 :: c1 :: c2 :: c3 :: rest =>
    match b64Index c0, b64Index c1 with
    | some i0, some i1 =>
      if c2 = '=' then
        if c3 = '=' ∧ rest = [] then some [i0 * 4 + i1 / 16] else none
      else
        match b64Index c2 with
        | some i2 =>
          if c3 = '=' then
            if rest = [] then
              some [i0 * 4 + i1 / 16, i1 % 16 * 16 + i2 / 4]
            else none
          else
            match b64Index c3 with
            | some i3 =>
              (base64Decode rest).map
                (fun bs => (i0 * 4 + i1 / 16) :: (i1 % 16 * 16 + i2 / 4) ::
                  (i2 % 4 * 64 + i3) :: bs)
            | none => none
        | none => none
    | _, _ => none
  | _ => none

theorem base64_roundtrip :
    ∀ bs : List ℕ, (∀ b ∈ bs, b < 256) →
      base64Decode (base64Encode bs) = some bs := by
  intro bs
  induction bs using base64Encode.induct with
  | case1 =>
    intro _
    simp [base64Encode, base64Decode]
  | case2 b0 =>
    intro h
    have hb0 : b0 < 256 := h b0 (by simp)
    have h0 : b64Index (b64Char (b0 / 4)) = some (b0 / 4) :=
      b64Index_b64Char _ (by omega)
    have h1 : b64Index (b64Char (b0 % 4 * 16)) = some (b0 % 4 * 16) :=
      b64Index_b64Char _ (by omega)
    simp only [base64Encode, base64Decode, h0, h1, and_self, if_true,
      Option.some.injEq, List.cons.injEq, and_true]
    omega
  | case3 b0 b1 =>
    intro h
    have hb0 : b0 < 256 := h b0 (by simp)
    have hb1 : b1 < 256 := h b1 (by simp)
    have h0 : b64Index (b64Char (b0 / 4)) = some (b0 / 4) :=
      b64Index_b64Char _ (by omega)
    have h1 : b64Index (b64Char (b0 % 4 * 16 + b1 / 16)) =
        some (b0 % 4 * 16 + b1 / 16) := b64Index_b64Char _ (by omega)
    have h2 : b64Index (b64Char (b1 % 16 * 4)) = some (b1 % 16 * 4) :=
      b64Index_b64Char _ (by omega)
    have h2' : b64Char (b1 % 16 * 4) ≠ '=' := b64Char_ne_pad _ (by omega)
    simp only [base64Encode, base64Decode, h0, h1, h2, if_neg h2',
      and_self, if_true, Option.some.injEq, List.cons.injEq, and_true]
    omega
  | case4 b0 b1 b2 rest ih =>
    intro h
    have hb0 : b0 < 256 := h b0 (by simp)
    have hb1 : b1 < 256 := h b1 (by simp)
    have hb2 : b2 < 256 := h b2 (by simp)
    have hrest : ∀ b ∈ rest, b < 256 := by
      intro b hb; exact h b (by simp [hb])
    have h0 : b64Index (b64Char (b0 / 4)) = some (b0 / 4) :=
      b64Index_b64Char _ (by omega)
    have h1 : b64Index (b64Char (b0 % 4 * 16 + b1 / 16)) =
        some (b0 % 4 * 16 + b1 / 16) := b64Index_b64Char _ (by omega)
    have h2 : b64Index (b64Char (b1 % 16 * 4 + b2 / 64)) =
        some (b1 % 16 * 4 + b2 / 64) := b64Index_b64Char _ (by omega)
    have h3 : b64Index (b64Char (b2 % 64)) = some (b2 % 64) :=
      b64Index_b64Char _ (by omega)
    have h2' : b64Char (b1 % 16 * 4 + b2 / 64) ≠ '=' :=
      b64Char_ne_pad _ (by omega)
    have h3' : b64Char (b2 % 64) ≠ '=' := b64Char_ne_pad _ (by omega)
    simp only [base64Encode, base64Decode, h0, h1, h2, h3, if_neg h2',
      if_neg h3', ih hrest]
    simp only [Option.map_some', Option.some.injEq, List.cons.injEq,
      and_true]
    refine ⟨by omega, by omega, by omega⟩

/-- The blob returned by `createPcmBlob`. -/
structure GenAiBlob where
  data : String
  mimeType : String
  deriving DecidableEq

/-- `createPcmBlob` of geminiService.ts, over the rational sample model:
convert every sample (clamp, scale by 32767, truncate), view the
`Int16Array` buffer as little-endian bytes, base64-encode, and pair with
the fixed MIME type. -/
def createPcmBlob (data : List ℚ) : GenAiBlob :=
  { data := String.mk (base64Encode (pcmBytes data)),
    mimeType := "audio/pcm;rate=16000" }

/-- C2: for every sample buffer (any length, including zero),
`createPcmBlob` returns a base64 string that decodes to exactly N
little-endian 16-bit samples, each within one LSB of the clamped and
scaled input, paired with the fixed MIME type.  The function is a pure
Lean function, so purity and determinism hold by construction. -/
theorem C2_createPcmBlob_decodes (data : List ℚ) :
    (createPcmBlob data).mimeType = "audio/pcm;rate=16000" ∧
    base64Decode (createPcmBlob data).data.toList = some (pcmBytes data) ∧
    (pcmBytes data).length = 2 * data.length ∧
    decodeInt16LE (pcmBytes data) = some (data.map createPcmSample) ∧
    (∀ x ∈ data,
      |(createPcmSample x : ℚ) - max (-1) (min 1 x) * 32767| ≤ 1) := by
  refine ⟨rfl, ?_, pcmBytes_length data, decodeInt16LE_pcmBytes data, ?_⟩
  · have h : (createPcmBlob data).data.toList =
        base64Encode (pcmBytes data) := rfl
    rw [h]
    exact base64_roundtrip _ (pcmBytes_lt data)
  · intro x _
    exact le_of_lt (abs_jsTrunc_sub_lt_one _)

/-- C2 witness: the specification evaluated on the one-sample buffer
holding 1/2. -/
theorem C2_createPcmBlob_decodes_witness :
    (createPcmBlob [1/2]).mimeType = "audio/pcm;rate=16000" ∧
    base64Decode (createPcmBlob [1/2]).data.toList = some (pcmBytes [1/2]) ∧
    (pcmBytes [1/2]).length = 2 * ([1/2] : List ℚ).length ∧
    decodeInt16LE (pcmBytes [1/2]) =
      some (([1/2] : List ℚ).map createPcmSample) ∧
    |(createPcmSample (1/2) : ℚ) - max (-1) (min 1 (1/2 : ℚ)) * 32767| ≤ 1 :=
  ⟨(C2_createPcmBlob_decodes [1/2]).1,
   (C2_createPcmBlob_decodes [1/2]).2.1,
   (C2_createPcmBlob_decodes [1/2]).2.2.1,
   (C2_createPcmBlob_decodes [1/2]).2.2.2.1,
   (C2_createPcmBlob_decodes [1/2]).2.2.2.2 (1/2) (by simp)⟩

/-! ## Batch diarization client (assembly service)

The network is modelled as an environment: the upload and job-start
stages by their outcome (`Except` carries the thrown message), the poll
stage by the sequence of HTTP responses the status endpoint returns.
`transcribeWithDiarization` itself is a total function into
`Option DiarizedTranscript` — `none` means the poll loop is still
running; a thrown exception is not representable in its type, matching
the catch-all in the source. -/

structure DiarizedUtterance where
  speaker : String
  text : String
  start : ℕ
  «end» : ℕ
  confidence : ℚ
  deriving DecidableEq

inductive TranscriptStatus where
  | completed
  | error
  deriving DecidableEq

structure DiarizedTranscript where
  text : String
  utterances : List DiarizedUtterance
  speakers : List String
  status : TranscriptStatus
  error : Option String
  deriving DecidableEq

/-- One JSON body returned by the status endpoint, together with the
HTTP success flag of its response. -/
structure PollData where
  ok : Bool
  errorMsg : Option String
  status : String
  error : Option String
  text : String
  utterances : Option (List DiarizedUtterance)
  deriving DecidableEq

/-- `pollTranscription` consumed one response per iteration, sleeping a
fixed interval between iterations; the result pairs the outcome with the
number of delay intervals spent, and is `none` when the given response
sequence ran out before a terminal status (the loop would keep polling).
-/
def pollTranscription : List PollData → Option (Except String PollData × ℕ)
  | [] => none
  | r :: rest =>
    if r.ok = false then
      some (Except.error (jsOr r.errorMsg "Polling failed"), 0)
    else if r.status = "completed" then some (Except.ok r, 0)
    else if r.status = "error" then
      some (Except.error ("Transcription failed: " ++ jsShow r.error), 0)
    else (pollTranscription rest).map (fun p => (p.1, p.2 + 1))

/-- The fixed poll interval: `setTimeout(resolve, 3000)`. -/
def pollIntervalMs : ℕ := 3000

/-- `uploadAudio`: non-ok responses throw the body error or a fallback. -/
def uploadAudio (ok : Bool) (errorMsg : Option String) (uploadUrl : String) :
    Except String String :=
  if ok then Except.ok uploadUrl else Except.error (jsOr errorMsg "Upload failed")

/-- `startTranscription`: non-ok responses throw body error or fallback. -/
def startTranscription (ok : Bool) (errorMsg : Option String) (id : String) :
    Except String String :=
  if ok then Except.ok id
  else Except.error (jsOr errorMsg "Transcription start failed")

/-- `[...new Set(xs)]`: deduplication keeping first occurrences, as a JS
`Set` iterates in insertion order. -/
def jsSetDedup : List String → List String
  | [] => []
  | a :: l => a :: jsSetDedup (l.filter (fun b => b ≠ a))
termination_by l => l.length
decreasing_by
  simp only [List.length_cons]
  exact Nat.lt_succ_of_le (List.length_filter_le _ _)

/-- The error-status transcript built by the catch-all branch. -/
def errorTranscript (msg : String) : DiarizedTranscript :=
  { text := "", utterances := [], speakers := [], status := .error,
    error := some msg }

/-- Step 4 of `transcribeWithDiarization`: shape the poll payload,
deriving the speaker list by JS-`Set` dedup followed by `.sort()`. -/
def completedTranscript (r : PollData) : DiarizedTranscript :=
  let utterances := (r.utterances.getD []).map (fun u =>
    { speaker := u.speaker, text := u.text, start := u.start,
      «end» := u.«end», confidence := u.confidence : DiarizedUtterance })
  { text := r.text,
    utterances := utterances,
    speakers :=
      (jsSetDedup (utterances.map (fun u => u.speaker))).insertionSort
        (fun a b => a ≤ b),
    status := .completed,
    error := none }

/-- The composite workflow: upload, start, poll, shape — with every
failure recovered into an error-status transcript.  The second component
is the sequence of progress labels reported. -/
def transcribeWithDiarization (upload : Except String String)
    (start : String → Except String String)
    (pollResponses : List PollData) :
    Option DiarizedTranscript × List String :=
  match upload with
  | .error m => (some (errorTranscript m), ["Uploading audio..."])
  | .ok url =>
    match start url with
    | .error m =>
      (some (errorTranscript m),
       ["Uploading audio...", "Starting speaker detection..."])
    | .ok _id =>
      let progress := ["Uploading audio...", "Starting speaker detection...",
        "Processing audio (this may take a moment)..."]
      match pollTranscription pollResponses with
      | none => (none, progress)
      | some (.error m, _) => (some (errorTranscript m), progress)
      | some (.ok r, _) => (some (completedTranscript r), progress)

/-- `formatDiarizedTranscript`: error message for error status, raw text
when there are no utterances, otherwise speaker-labelled lines joined by
blank lines. -/
def formatDiarizedTranscript (result : DiarizedTranscript) : String :=
  if result.status = TranscriptStatus.error then
    "Error: " ++ jsShow result.error
  else if result.utterances.length = 0 then result.text
  else
    String.intercalate "\n\n"
      (result.utterances.map (fun u => "Speaker " ++ u.speaker ++ ": " ++ u.text))

theorem mem_jsSetDedup : ∀ (l : List String) (x : String),
    x ∈ jsSetDedup l ↔ x ∈ l := by
  intro l
  induction l using jsSetDedup.induct with
  | case1 => simp [jsSetDedup]
  | case2 a l ih =>
    intro x
    simp only [jsSetDedup, List.mem_cons, ih, List.mem_filter,
      decide_eq_true_eq]
    by_cases hx : x = a
    · simp [hx]
    · simp [hx]

theorem nodup_jsSetDedup : ∀ l : List String, (jsSetDedup l).Nodup := by
  intro l
  induction l using jsSetDedup.induct with
  | case1 => simp [jsSetDedup]
  | case2 a l ih =>
    rw [jsSetDedup, List.nodup_cons]
    refine ⟨?_, ih⟩
    rw [mem_jsSetDedup]
    simp

theorem pollTranscription_skip (r : PollData) (rest : List PollData)
    (hok : r.ok = true) (hc : r.status ≠ "completed")
    (he : r.status ≠ "error") :
    pollTranscription (r :: rest) =
      (pollTranscription rest).map (fun p => (p.1, p.2 + 1)) := by
  simp [pollTranscription, hok, hc, he]

theorem pollTranscription_skipRun (pre rest : List PollData)
    (hpre : ∀ p ∈ pre,
      p.ok = true ∧ p.status ≠ "completed" ∧ p.status ≠ "error") :
    pollTranscription (pre ++ rest) =
      (pollTranscription rest).map (fun p => (p.1, p.2 + pre.length)) := by
  induction pre with
  | nil =>
    simp only [List.nil_append, List.length_nil]
    cases h : pollTranscription rest with
    | none => simp
    | some p => cases p with | mk res n => simp
  | cons a pre ih =>
    obtain ⟨h1, h2, h3⟩ := hpre a (by simp)
    rw [List.cons_append, pollTranscription_skip a _ h1 h2 h3,
      ih (fun p hp => hpre p (by simp [hp]))]
    cases h : pollTranscription rest with
    | none => simp
    | some p =>
      cases p with | mk res n =>
      simp only [Option.map_some', List.length_cons, Option.some.injEq,
        Prod.mk.injEq, true_and]
      omega

theorem pollTranscription_completed (r : PollData) (post : List PollData)
    (hok : r.ok = true) (hc : r.status = "completed") :
    pollTranscription (r :: post) = some (Except.ok r, 0) := by
  simp [pollTranscription, hok, hc]

theorem pollTranscription_error (r : PollData) (post : List PollData)
    (hok : r.ok = true) (he : r.status = "error") :
    pollTranscription (r :: post) =
      some (Except.error ("Transcription failed: " ++ jsShow r.error), 0) := by
  have hc : r.status ≠ "completed" := by rw [he]; decide
  simp [pollTranscription, hok, hc, he]

/-- C5: the poll loop runs at a fixed 3-second interval with no retry
bound: for ANY number of non-terminal responses it keeps going, resolves
with the full payload on `completed`, and fails with the provider
message on `error`, in each case after exactly one delay interval per
non-terminal response. -/
theorem C5_pollTranscription_terminal (pre : List PollData) (r : PollData)
    (post : List PollData)
    (hpre : ∀ p ∈ pre,
      p.ok = true ∧ p.status ≠ "completed" ∧ p.status ≠ "error")
    (hok : r.ok = true) :
    pollIntervalMs = 3000 ∧
    (r.status = "completed" →
      pollTranscription (pre ++ r :: post) = some (Except.ok r, pre.length)) ∧
    (r.status = "error" →
      pollTranscription (pre ++ r :: post) =
        some (Except.error ("Transcription failed: " ++ jsShow r.error),
          pre.length)) := by
  refine ⟨rfl, ?_, ?_⟩
  · intro hc
    rw [pollTranscription_skipRun pre _ hpre,
      pollTranscription_completed r post hok hc]
    simp
  · intro he
    rw [pollTranscription_skipRun pre _ hpre,
      pollTranscription_error r post hok he]
    simp

/-- A non-terminal "processing" response with a successful HTTP status. -/
def processingResponse : PollData :=
  { ok := true, errorMsg := none, status := "processing", error := none,
    text := "", utterances := none }

/-- A sample utterance used in concrete evaluations. -/
def utteranceAhi : DiarizedUtterance :=
  { speaker := "A", text := "hi", start := 0, «end» := 1, confidence := 1 }

/-- A terminal "completed" response carrying a payload. -/
def completedResponse : PollData :=
  { ok := true, errorMsg := none, status := "completed", error := none,
    text := "full text", utterances := some [utteranceAhi] }

/-- C5 witness: the sequence processing, processing, completed resolves
with the completed payload after exactly two 3-second delay intervals. -/
theorem C5_pollTranscription_terminal_witness :
    pollIntervalMs = 3000 ∧
    pollTranscription
        [processingResponse, processingResponse, completedResponse] =
      some (Except.ok completedResponse, 2) := by
  have h := C5_pollTranscription_terminal
    [processingResponse, processingResponse] completedResponse []
    (by decide) (by decide)
  exact ⟨h.1, h.2.1 (by decide)⟩

/-- C1: `transcribeWithDiarization` never throws (its type is total);
whenever any of the three stages fails, it resolves with an error-status
transcript whose `error` field carries the failure message; and a poll
sequence reporting status "error" resolves with the provider message
wrapped by the poll loop. -/
theorem C1_transcribeWithDiarization_recovers
    (upload : Except String String) (start : String → Except String String)
    (prs : List PollData) :
    (∀ m, (errorTranscript m).status = TranscriptStatus.error ∧
      (errorTranscript m).error = some m) ∧
    (∀ t, (transcribeWithDiarization upload start prs).1 = some t →
      t.status = TranscriptStatus.completed ∨
      t.status = TranscriptStatus.error) ∧
    (∀ m, upload = Except.error m →
      (transcribeWithDiarization upload start prs).1 =
        some (errorTranscript m)) ∧
    (∀ u m, upload = Except.ok u → start u = Except.error m →
      (transcribeWithDiarization upload start prs).1 =
        some (errorTranscript m)) ∧
    (∀ u i m n, upload = Except.ok u → start u = Except.ok i →
      pollTranscription prs = some (Except.error m, n) →
      (transcribeWithDiarization upload start prs).1 =
        some (errorTranscript m)) ∧
    (∀ u i pre r post, upload = Except.ok u → start u = Except.ok i →
      (∀ p ∈ pre,
        p.ok = true ∧ p.status ≠ "completed" ∧ p.status ≠ "error") →
      r.ok = true → r.status = "error" → prs = pre ++ r :: post →
      (transcribeWithDiarization upload start prs).1 =
        some (errorTranscript ("Transcription failed: " ++ jsShow r.error)))
    := by
  refine ⟨fun m => ⟨rfl, rfl⟩, ?_, ?_, ?_, ?_, ?_⟩
  · intro t ht
    cases hU : upload with
    | error m =>
      simp only [transcribeWithDiarization, hU] at ht
      simp only [Option.some.injEq] at ht
      right; rw [← ht]; rfl
    | ok url =>
      cases hS : start url with
      | error m =>
        simp only [transcribeWithDiarization, hU, hS] at ht
        simp only [Option.some.injEq] at ht
        right; rw [← ht]; rfl
      | ok i =>
        cases hP : pollTranscription prs with
        | none => simp [transcribeWithDiarization, hU, hS, hP] at ht
        | some p =>
          cases p with | mk res n =>
          cases res with
          | error m =>
            simp only [transcribeWithDiarization, hU, hS, hP] at ht
            simp only [Option.some.injEq] at ht
            right; rw [← ht]; rfl
          | ok r =>
            simp only [transcribeWithDiarization, hU, hS, hP] at ht
            simp only [Option.some.injEq] at ht
            left; rw [← ht]; rfl
  · intro m hm
    simp [transcribeWithDiarization, hm]
  · intro u m hu hs
    simp [transcribeWithDiarization, hu, hs]
  · intro u i m n hu hs hp
    simp [transcribeWithDiarization, hu, hs, hp]
  · intro u i pre r post hu hs hpre hok he hprs
    subst hprs
    have hpoll := pollTranscription_skipRun pre (r :: post) hpre
    rw [pollTranscription_error r post hok he] at hpoll
    simp only [Option.map_some'] at hpoll
    simp [transcribeWithDiarization, hu, hs, hpoll]

/-- A terminal "error" response carrying a provider message. -/
def errorResponse : PollData :=
  { ok := true, errorMsg := none, status := "error",
    error := some "bad audio", text := "", utterances := none }

/-- C1 witness: an upload failure resolves with its message, and a poll
status of "error" resolves with the wrapped provider message. -/
theorem C1_transcribeWithDiarization_recovers_witness :
    (transcribeWithDiarization (Except.error "boom")
      (fun _ => Except.ok "id") []).1 = some (errorTranscript "boom") ∧
    (transcribeWithDiarization (Except.ok "url")
      (fun _ => Except.ok "id") [errorResponse]).1 =
      some (errorTranscript
        ("Transcription failed: " ++ jsShow errorResponse.error)) :=
  ⟨(C1_transcribeWithDiarization_recovers (Except.error "boom")
      (fun _ => Except.ok "id") []).2.2.1 "boom" rfl,
   (C1_transcribeWithDiarization_recovers (Except.ok "url")
      (fun _ => Except.ok "id") [errorResponse]).2.2.2.2.2
      "url" "id" [] errorResponse [] rfl rfl (by simp) rfl rfl rfl⟩

/-- C3: a successful run resolves with a completed transcript whose
utterances are exactly the remote payload in remote order (no local
re-sorting) and whose speaker list is sorted, duplicate-free, and has
the same members as the speaker labels of the utterances. -/
theorem C3_completed_speakers_invariant
    (upload : Except String String) (start : String → Except String String)
    (prs : List PollData) (u i : String) (r : PollData) (n : ℕ)
    (hu : upload = Except.ok u) (hs : start u = Except.ok i)
    (hp : pollTranscription prs = some (Except.ok r, n)) :
    (transcribeWithDiarization upload start prs).1 =
      some (completedTranscript r) ∧
    (completedTranscript r).status = TranscriptStatus.completed ∧
    (completedTranscript r).utterances = r.utterances.getD [] ∧
    List.Sorted (fun a b => a ≤ b) (completedTranscript r).speakers ∧
    (completedTranscript r).speakers.Nodup ∧
    (∀ s, s ∈ (completedTranscript r).speakers ↔
      s ∈ (completedTranscript r).utterances.map (fun x => x.speaker)) := by
  have hid : (fun x : DiarizedUtterance =>
      ({ speaker := x.speaker, text := x.text, start := x.start,
         «end» := x.«end», confidence := x.confidence } :
        DiarizedUtterance)) = fun x => x := rfl
  refine ⟨by simp [transcribeWithDiarization, hu, hs, hp], rfl, ?_, ?_, ?_, ?_⟩
  · simp [completedTranscript, hid]
  · exact List.sorted_insertionSort _ _
  · exact ((List.perm_insertionSort _ _).nodup_iff).mpr (nodup_jsSetDedup _)
  · intro s
    rw [show (completedTranscript r).speakers =
        (jsSetDedup (((completedTranscript r).utterances).map
          (fun x => x.speaker))).insertionSort (fun a b => a ≤ b) from rfl,
      (List.perm_insertionSort _ _).mem_iff, mem_jsSetDedup]

/-- C3 witness: the invariant evaluated on a concrete successful run
with one utterance by speaker A. -/
theorem C3_completed_speakers_invariant_witness :
    (transcribeWithDiarization (Except.ok "url") (fun _ => Except.ok "id")
      [completedResponse]).1 = some (completedTranscript completedResponse) ∧
    (completedTranscript completedResponse).status =
      TranscriptStatus.completed ∧
    (completedTranscript completedResponse).utterances =
      completedResponse.utterances.getD [] ∧
    List.Sorted (fun a b => a ≤ b)
      (completedTranscript completedResponse).speakers ∧
    (completedTranscript completedResponse).speakers.Nodup ∧
    ("A" ∈ (completedTranscript completedResponse).speakers ↔
      "A" ∈ (completedTranscript completedResponse).utterances.map
        (fun x => x.speaker)) := by
  have h := C3_completed_speakers_invariant (Except.ok "url")
    (fun _ => Except.ok "id") [completedResponse] "url" "id"
    completedResponse 0 rfl rfl rfl
  exact ⟨h.1, h.2.1, h.2.2.1, h.2.2.2.1, h.2.2.2.2.1, h.2.2.2.2.2 "A"⟩

/-- A second sample utterance used in concrete evaluations. -/
def utteranceBbye : DiarizedUtterance :=
  { speaker := "B", text := "bye", start := 1, «end» := 2, confidence := 1 }

/-- C4: `formatDiarizedTranscript` renders an error-status transcript as
its error message behind the literal prefix "Error: ", a completed
transcript with no utterances as exactly the raw full text, and
otherwise one speaker-labelled line per utterance joined by blank lines
in utterance order; on the two-utterance example this yields
"Speaker A: hi", a blank line, "Speaker B: bye". -/
theorem C4_formatDiarizedTranscript_cases :
    (∀ r : DiarizedTranscript, r.status = TranscriptStatus.error →
      formatDiarizedTranscript r = "Error: " ++ jsShow r.error) ∧
    (∀ r : DiarizedTranscript, r.status = TranscriptStatus.completed →
      r.utterances = [] → formatDiarizedTranscript r = r.text) ∧
    (∀ r : DiarizedTranscript, r.status = TranscriptStatus.completed →
      r.utterances ≠ [] →
      formatDiarizedTranscript r = String.intercalate "\n\n"
        (r.utterances.map
          (fun u => "Speaker " ++ u.speaker ++ ": " ++ u.text))) ∧
    formatDiarizedTranscript
      { text := "full", utterances := [utteranceAhi, utteranceBbye],
        speakers := ["A", "B"], status := TranscriptStatus.completed,
        error := none } = "Speaker A: hi\n\nSpeaker B: bye" := by
  refine ⟨?_, ?_, ?_, rfl⟩
  · intro r h
    simp [formatDiarizedTranscript, h]
  · intro r h h2
    simp [formatDiarizedTranscript, h, h2]
  · intro r h h3
    simp [formatDiarizedTranscript, h, List.length_eq_zero, h3]

/-- C4 witness: the three branches evaluated on concrete transcripts. -/
theorem C4_formatDiarizedTranscript_cases_witness :
    formatDiarizedTranscript (errorTranscript "oops") =
      "Error: " ++ jsShow (errorTranscript "oops").error ∧
    formatDiarizedTranscript
      { text := "raw", utterances := [], speakers := [],
        status := TranscriptStatus.completed, error := none } = "raw" ∧
    formatDiarizedTranscript
      { text := "full", utterances := [utteranceAhi], speakers := ["A"],
        status := TranscriptStatus.completed, error := none } =
      String.intercalate "\n\n" ([utteranceAhi].map
        (fun u => "Speaker " ++ u.speaker ++ ": " ++ u.text)) :=
  ⟨C4_formatDiarizedTranscript_cases.1 (errorTranscript "oops") rfl,
   C4_formatDiarizedTranscript_cases.2.1 _ rfl rfl,
   C4_formatDiarizedTranscript_cases.2.2.1
     { text := "full", utterances := [utteranceAhi], speakers := ["A"],
       status := TranscriptStatus.completed, error := none } rfl
     (by simp)⟩

/-! ## Realtime transcription client

The session state tracks the WebSocket ready-state, the nullable
audio-graph nodes, and the media tracks.  Every browser call made by the
source's `stop` closure is total: `send` is guarded by the OPEN check,
`close`/`disconnect`/`track.stop` never throw synchronously and are
no-ops on already-released resources, and `AudioContext.close` rejects
only asynchronously.  `stop` returns the new state next to the ordered
trace of calls it performs. -/

inductive ReadyState where
  | connecting
  | opened
  | closing
  | closed
  deriving DecidableEq

/-- A `MediaStreamTrack`: `stop()` ends it; ending an already-ended
track is a no-op, so `releaseCount` counts actual live-to-ended
transitions. -/
structure Track where
  stopped : Bool
  releaseCount : ℕ
  deriving DecidableEq

def Track.stop (t : Track) : Track :=
  if t.stopped then t
  else { stopped := true, releaseCount := t.releaseCount + 1 }

theorem Track.stop_idem (t : Track) : (t.stop).stop = t.stop := by
  by_cases h : t.stopped <;> simp [Track.stop, h]

inductive StopEffect where
  | sendTerminate
  | closeSocket
  | disconnectProcessor
  | disconnectSource
  | closeContext
  | stopTracks
  deriving DecidableEq

structure RealtimeSession where
  socket : ReadyState
  hasProcessor : Bool
  hasSource : Bool
  hasContext : Bool
  tracks : Option (List Track)
  deriving DecidableEq

/-- The `stop` closure of `startRealtimeTranscription`: send the
termination message only when the socket is OPEN, close the socket, then
tear down processor, source, context and tracks, each guarded by its
null check. -/
def RealtimeSession.stop (s : RealtimeSession) :
    RealtimeSession × List StopEffect :=
  let terminateEffects :=
    if s.socket = ReadyState.opened then [StopEffect.sendTerminate] else []
  let socket2 :=
    if s.socket = ReadyState.closing ∨ s.socket = ReadyState.closed then
      s.socket
    else ReadyState.closing
  let processorEffects :=
    if s.hasProcessor then [StopEffect.disconnectProcessor] else []
  let sourceEffects :=
    if s.hasSource then [StopEffect.disconnectSource] else []
  let contextEffects :=
    if s.hasContext then [StopEffect.closeContext] else []
  let trackEffects :=
    if s.tracks.isSome then [StopEffect.stopTracks] else []
  ({ socket := socket2, hasProcessor := s.hasProcessor,
     hasSource := s.hasSource, hasContext := s.hasContext,
     tracks := s.tracks.map (List.map Track.stop) },
   terminateEffects ++ [StopEffect.closeSocket] ++ processorEffects ++
     sourceEffects ++ contextEffects ++ trackEffects)

/-- C6: with the audio graph present, the first stop emits — in order —
the termination send exactly when the socket is open, the socket close,
then the node and track teardown; every live track is released exactly
once; the second stop is error-free (total), sends no termination
message, and releases no track again. -/
theorem C6_stop_idempotent (s : RealtimeSession) (ts : List Track)
    (hp : s.hasProcessor = true) (hsrc : s.hasSource = true)
    (hc : s.hasContext = true) (ht : s.tracks = some ts)
    (hlive : ∀ t ∈ ts, t.stopped = false ∧ t.releaseCount = 0) :
    ((s.stop).2 =
      (if s.socket = ReadyState.opened then [StopEffect.sendTerminate]
        else []) ++
      [StopEffect.closeSocket, StopEffect.disconnectProcessor,
       StopEffect.disconnectSource, StopEffect.closeContext,
       StopEffect.stopTracks]) ∧
    (StopEffect.sendTerminate ∈ (s.stop).2 ↔
      s.socket = ReadyState.opened) ∧
    ((s.stop).1.tracks = some (ts.map Track.stop)) ∧
    (∀ t ∈ ts, (Track.stop t).stopped = true ∧
      (Track.stop t).releaseCount = 1) ∧
    (StopEffect.sendTerminate ∉ ((s.stop).1.stop).2) ∧
    (((s.stop).1.stop).1.tracks = some (ts.map Track.stop)) := by
  have hsock2 : (s.stop).1.socket ≠ ReadyState.opened := by
    simp only [RealtimeSession.stop]
    rcases h : s.socket with _ | _ | _ | _ <;> simp
  refine ⟨?_, ?_, ?_, ?_, ?_, ?_⟩
  · simp [RealtimeSession.stop, hp, hsrc, hc, ht]
  · simp only [RealtimeSession.stop, hp, hsrc, hc, ht]
    by_cases h : s.socket = ReadyState.opened <;> simp [h]
  · simp [RealtimeSession.stop, ht]
  · intro t htm
    obtain ⟨h1, h2⟩ := hlive t htm
    simp [Track.stop, h1, h2]
  · have h2 : ((s.stop).1.stop).2 =
        (if (s.stop).1.socket = ReadyState.opened then
          [StopEffect.sendTerminate] else []) ++
        [StopEffect.closeSocket, StopEffect.disconnectProcessor,
         StopEffect.disconnectSource, StopEffect.closeContext,
         StopEffect.stopTracks] := by
      simp [RealtimeSession.stop, hp, hsrc, hc, ht]
    rw [h2, if_neg hsock2]
    simp
  · simp only [RealtimeSession.stop, ht, Option.map_some']
    rw [List.map_map]
    have hcomp : Track.stop ∘ Track.stop = Track.stop := by
      funext t
      exact Track.stop_idem t
    rw [hcomp]

/-- A live microphone track as granted by `getUserMedia`. -/
def liveTrack : Track := { stopped := false, releaseCount := 0 }

/-- A fully built session whose socket is open. -/
def freshSession : RealtimeSession :=
  { socket := ReadyState.opened, hasProcessor := true, hasSource := true,
    hasContext := true, tracks := some [liveTrack] }

/-- C6 witness: the fresh open session with one live microphone track,
stopped twice. -/
theorem C6_stop_idempotent_witness :
    (freshSession.stop).2 =
      [StopEffect.sendTerminate, StopEffect.closeSocket,
       StopEffect.disconnectProcessor, StopEffect.disconnectSource,
       StopEffect.closeContext, StopEffect.stopTracks] ∧
    ((freshSession.stop).1.stop).1.tracks =
      some [{ stopped := true, releaseCount := 1 }] := by
  have h := C6_stop_idempotent freshSession [liveTrack]
    rfl rfl rfl rfl (by decide)
  refine ⟨?_, ?_⟩
  · rw [h.1]; rfl
  · rw [h.2.2.2.2.2]; rfl

/-- One parsed incoming realtime socket message; absent JSON fields are
`none`. -/
structure RtMessage where
  message_type : Option String
  text : Option String
  deriving DecidableEq

/-- The `socket.onmessage` dispatch: the pair it hands to the caller's
`onTranscript` callback (`none` when the callback is not invoked).  Both
branches require the `text` field to be truthy, i.e. present and
nonempty. -/
def socketOnMessage (m : RtMessage) : Option (String × Bool) :=
  if m.message_type = some "FinalTranscript" ∧ jsTruthy m.text = true then
    some (m.text.getD "", true)
  else if m.message_type = some "PartialTranscript" ∧ jsTruthy m.text = true
  then some (m.text.getD "", false)
  else none

/-- C7 (amended): a final-transcript message with nonempty text invokes
the callback with `isFinal = true`, a partial-transcript message with
nonempty text invokes it with `isFinal = false`, and every other message
— including final/partial messages whose text is empty or absent — is
ignored without error. -/
theorem C7_socketOnMessage_dispatch :
    (∀ (m : RtMessage) (s : String), m.message_type = some "FinalTranscript" →
      m.text = some s → s ≠ "" → socketOnMessage m = some (s, true)) ∧
    (∀ (m : RtMessage) (s : String),
      m.message_type = some "PartialTranscript" →
      m.text = some s → s ≠ "" → socketOnMessage m = some (s, false)) ∧
    (∀ m : RtMessage, jsTruthy m.text = false → socketOnMessage m = none) ∧
    (∀ m : RtMessage, m.message_type ≠ some "FinalTranscript" →
      m.message_type ≠ some "PartialTranscript" →
      socketOnMessage m = none) := by
  refine ⟨?_, ?_, ?_, ?_⟩
  · intro m s hmt htxt hs
    have htr : jsTruthy (some s) = true := by simp [jsTruthy, hs]
    simp [socketOnMessage, hmt, htxt, htr]
  · intro m s hmt htxt hs
    have htr : jsTruthy (some s) = true := by simp [jsTruthy, hs]
    have hne : m.message_type ≠ some "FinalTranscript" := by
      rw [hmt]; simp
    simp [socketOnMessage, hmt, hne, htxt, htr]
  · intro m htr
    simp [socketOnMessage, htr]
  · intro m h1 h2
    simp [socketOnMessage, h1, h2]

/-- C7 witness: concrete dispatches of a final, a partial, and an
unrecognized message. -/
theorem C7_socketOnMessage_dispatch_witness :
    socketOnMessage { message_type := some "FinalTranscript", text := some "hello" } = some ("hello", true) ∧
    socketOnMessage { message_type := some "PartialTranscript", text := some "hel" } = some ("hel", false) ∧
    socketOnMessage { message_type := some "SessionBegins", text := none } = none :=
  ⟨C7_socketOnMessage_dispatch.1 _ "hello" rfl rfl (by decide),
   C7_socketOnMessage_dispatch.2.1 _ "hel" rfl rfl (by decide),
   C7_socketOnMessage_dispatch.2.2.1 _ rfl⟩

/-- C7 counterexample: a final-transcript message whose text field is
the empty string does NOT invoke the callback — the claim's unqualified
"a final-transcript message invokes the callback with isFinal = true"
fails on it. -/
theorem C7_empty_final_ignored :
    socketOnMessage { message_type := some "FinalTranscript", text := some "" } = none := rfl

/-! ## Content transformation client (geminiService.ts) -/

/-- The tone lookup table of `transformContentStream`. -/
def toneMap (k : String) : Option String :=
  if k = "professional" then
    some "Use a professional, business-appropriate tone."
  else if k = "casual" then
    some "Use a casual, relaxed conversational tone."
  else if k = "friendly" then
    some "Use a warm, friendly, and approachable tone."
  else none

/-- `toneMap[options.tone || 'professional'] || toneMap.professional`. -/
def toneInstruction (tone : Option String) : String :=
  jsOr (toneMap (jsOr tone "professional"))
    "Use a professional, business-appropriate tone."

/-- The language lookup table of `transformContentStream`. -/
def languageMap (k : String) : Option String :=
  if k = "en" then some "Write the output in English."
  else if k = "zh" then some "Write the output in Simplified Chinese (中文)."
  else if k = "ms" then some "Write the output in Bahasa Melayu."
  else if k = "ta" then some "Write the output in Tamil (தமிழ்)."
  else none

/-- `languageMap[options.language || 'en'] || languageMap.en`. -/
def languageInstruction (language : Option String) : String :=
  jsOr (languageMap (jsOr language "en")) "Write the output in English."

/-- The optional style-guide block of the system instruction. -/
def styleInstruction (styleGuide : Option String) : String :=
  if jsTruthy styleGuide = true then
    "\n\nADDITIONAL STYLE GUIDE - Follow these custom writing style rules:\n"
      ++ jsShow styleGuide ++ "\n\n"
  else ""

/-- The options bag of `transformContentStream`. -/
structure TransformOptions where
  summaryLength : Option String
  customPrompt : Option String
  tone : Option String
  language : Option String
  styleGuide : Option String

/-- The prefix of the system instruction that `transformContentStream`
builds before appending the per-format template. -/
def systemInstructionBase (options : TransformOptions) : String :=
  "You are an expert content shaper. " ++ toneInstruction options.tone ++
    " " ++ languageInstruction options.language ++
    styleInstruction options.styleGuide ++
    " IMPORTANT: Output plain text only. Never use markdown formatting like **, ##, *, or any other markdown syntax. "

/-- C8: any tone key outside the recognized three maps silently to the
professional instruction text, any language key outside the recognized
four maps silently to the English instruction text, the same defaults
apply when the option is absent, and the stream's system instruction is
built from these total functions (no error is possible). -/
theorem C8_tone_language_fallback :
    (∀ k, k ≠ "professional" → k ≠ "casual" → k ≠ "friendly" →
      toneMap k = none) ∧
    (∀ t : Option String, (∀ s, t = some s → toneMap s = none) →
      toneInstruction t = "Use a professional, business-appropriate tone.") ∧
    toneInstruction none = "Use a professional, business-appropriate tone." ∧
    (∀ k, k ≠ "en" → k ≠ "zh" → k ≠ "ms" → k ≠ "ta" →
      languageMap k = none) ∧
    (∀ l : Option String, (∀ s, l = some s → languageMap s = none) →
      languageInstruction l = "Write the output in English.") ∧
    languageInstruction none = "Write the output in English." ∧
    (∀ options : TransformOptions, systemInstructionBase options =
      "You are an expert content shaper. " ++ toneInstruction options.tone ++
        " " ++ languageInstruction options.language ++
        styleInstruction options.styleGuide ++
        " IMPORTANT: Output plain text only. Never use markdown formatting like **, ##, *, or any other markdown syntax. ") := by
  refine ⟨?_, ?_, rfl, ?_, ?_, rfl, fun _ => rfl⟩
  · intro k h1 h2 h3
    simp [toneMap, h1, h2, h3]
  · intro t hmiss
    cases t with
    | none => rfl
    | some s =>
      by_cases hs : s = ""
      · simp [toneInstruction, jsOr, hs, toneMap]
      · have hm : toneMap s = none := hmiss s rfl
        simp [toneInstruction, jsOr, hs, hm]
  · intro k h1 h2 h3 h4
    simp [languageMap, h1, h2, h3, h4]
  · intro l hmiss
    cases l with
    | none => rfl
    | some s =>
      by_cases hs : s = ""
      · simp [languageInstruction, jsOr, hs, languageMap]
      · have hm : languageMap s = none := hmiss s rfl
        simp [languageInstruction, jsOr, hs, hm]

/-- C8 witness: the unrecognized keys "sarcastic" and "fr" fall back to
the professional and English instruction texts. -/
theorem C8_tone_language_fallback_witness :
    toneMap "sarcastic" = none ∧
    toneInstruction (some "sarcastic") =
      "Use a professional, business-appropriate tone." ∧
    languageInstruction (some "fr") = "Write the output in English." :=
  ⟨C8_tone_language_fallback.1 "sarcastic" (by decide) (by decide)
      (by decide),
   C8_tone_language_fallback.2.1 (some "sarcastic")
     (fun s hs => by
       cases hs
       exact C8_tone_language_fallback.1 _ (by decide) (by decide)
         (by decide)),
   C8_tone_language_fallback.2.2.2.2.1 (some "fr")
     (fun s hs => by
       cases hs
       exact C8_tone_language_fallback.2.2.2.1 _ (by decide) (by decide)
         (by decide) (by decide))⟩

/-- One part of a generative-model request. -/
inductive GenPart where
  | inlineData (mimeType : String) (data : String)
  | text (t : String)
  deriving DecidableEq

/-- A generative-model request: model identifier plus content parts. -/
structure GenRequest where
  model : String
  parts : List GenPart
  deriving DecidableEq

/-- The fixed instruction sent by `transcribeAudioFile`. -/
def transcriptionInstruction : String :=
  "Please provide a highly accurate word-for-word transcript of this audio. No summary, just text."

/-- The request `transcribeAudioFile` submits. -/
def transcribeRequest (base64Data mimeType : String) : GenRequest :=
  { model := "gemini-2.0-flash",
    parts := [GenPart.inlineData mimeType base64Data,
      GenPart.text transcriptionInstruction] }

/-- `transcribeAudioFile`, with the provider modelled as a function from
the submitted request to the optional response text:
`response.text || "Transcription failed."`. -/
def transcribeAudioFile (respond : GenRequest → Option String)
    (base64Data mimeType : String) : String :=
  jsOr (respond (transcribeRequest base64Data mimeType))
    "Transcription failed."

/-- C9: `transcribeAudioFile` submits the inline base64 payload with the
fixed word-for-word instruction; an absent or empty provider text yields
the literal fallback string (without throwing — the function is total),
and any nonempty text is returned as-is. -/
theorem C9_transcribeAudioFile_fallback
    (respond : GenRequest → Option String) (base64Data mimeType : String) :
    (transcribeRequest base64Data mimeType).parts =
      [GenPart.inlineData mimeType base64Data,
        GenPart.text transcriptionInstruction] ∧
    (transcribeRequest base64Data mimeType).model = "gemini-2.0-flash" ∧
    transcriptionInstruction =
      "Please provide a highly accurate word-for-word transcript of this audio. No summary, just text." ∧
    (respond (transcribeRequest base64Data mimeType) = none →
      transcribeAudioFile respond base64Data mimeType =
        "Transcription failed.") ∧
    (respond (transcribeRequest base64Data mimeType) = some "" →
      transcribeAudioFile respond base64Data mimeType =
        "Transcription failed.") ∧
    (∀ s, s ≠ "" → respond (transcribeRequest base64Data mimeType) = some s →
      transcribeAudioFile respond base64Data mimeType = s) := by
  refine ⟨rfl, rfl, rfl, ?_, ?_, ?_⟩
  · intro h
    simp [transcribeAudioFile, h, jsOr]
  · intro h
    simp [transcribeAudioFile, h, jsOr]
  · intro s hs h
    simp [transcribeAudioFile, h, jsOr, hs]

/-- C9 witness: an empty provider text yields the fallback string and a
nonempty one is returned verbatim. -/
theorem C9_transcribeAudioFile_fallback_witness :
    transcribeAudioFile (fun _ => some "") "QUJD" "audio/webm" =
      "Transcription failed." ∧
    transcribeAudioFile (fun _ => some "hello world") "QUJD" "audio/webm" =
      "hello world" :=
  ⟨(C9_transcribeAudioFile_fallback (fun _ => some "") "QUJD"
      "audio/webm").2.2.2.2.1 rfl,
   (C9_transcribeAudioFile_fallback (fun _ => some "hello world") "QUJD"
      "audio/webm").2.2.2.2.2 "hello world" (by decide) rfl⟩

end Kyra
